import Mathlib

/-!
# The leveled logger of `lib/logger.js`

A shallow embedding of the logger module: the severity constants, the guarded
`level` property, `levelToString`, `dateToMilliTimeString`,
`getCallLocationFromStackString`, `doLog`, `makeLogMethod` and the public
emission methods, followed by theorems about them.

JavaScript strings are lists of characters.  The clock (`new Date()`) and the
captured stack text (`(new Error()).stack`) are inputs of an emission, gathered
in `Env`.  Calls of `console.log` and of `logger.emit` are recorded, in order,
as the list of `Action`s an emission performs; a dereference of `null` is the
error `JSError.typeError`.
-/

namespace Logger

/-- A JavaScript string. -/
abbrev JSString := List Char

/-! ## Values -/

/-- The primitive values a caller can hand to the logger.  A number is given by
the text `Number.prototype.toString` prints for it (`"3"`, `"3.7"`, `"1e+21"`,
`"NaN"`, `"-Infinity"`; both zeros print `"0"`), which is all this module ever
observes of a number it receives.  Symbols and objects, whose conversion to a
string can raise, are values of `AnyValue`. -/
inductive JSValue where
  | undefined
  | null
  | boolean (b : Bool)
  | number (repr : JSString)
  | string (s : JSString)
  deriving DecidableEq, Repr

/-- The abstract operation `ToString` on primitive values. -/
def JSValue.toJSString : JSValue → JSString
  | .undefined => "undefined".toList
  | .null => "null".toList
  | .boolean true => "true".toList
  | .boolean false => "false".toList
  | .number repr => repr
  | .string s => s

/-- The abstract operation `ToBoolean`: `undefined`, `null`, `false`, the zeros,
`NaN` and the empty string are falsy. -/
def JSValue.toBoolean : JSValue → Bool
  | .undefined => false
  | .null => false
  | .boolean b => b
  | .number repr => !(repr = "0".toList || repr = "NaN".toList)
  | .string s => !s.isEmpty

/-! ## `parseInt(val, 10)` -/

/-- The characters `parseInt` skips at the front of its input: the white space
and line terminator code points of the language. -/
def isStrWhiteSpaceChar (c : Char) : Bool :=
  c.toNat ∈ [0x9, 0xA, 0xB, 0xC, 0xD, 0x20, 0xA0, 0x1680, 0x2000, 0x2001, 0x2002,
    0x2003, 0x2004, 0x2005, 0x2006, 0x2007, 0x2008, 0x2009, 0x200A, 0x2028, 0x2029,
    0x202F, 0x205F, 0x3000, 0xFEFF]

/-- Whether a character is a decimal digit. -/
def isDecimalDigit (c : Char) : Bool :=
  '0'.toNat ≤ c.toNat && c.toNat ≤ '9'.toNat

/-- The mathematical integer a string of decimal digits denotes. -/
def digitsValue (ds : JSString) : Nat :=
  ds.foldl (fun acc c => 10 * acc + (c.toNat - '0'.toNat)) 0

/-- The runtime function `parseInt(string, 10)` on the string its argument
converts to: leading white space is skipped, one sign is read, and the longest
run of decimal digits that follows is the result; `none` is `NaN` (no digit).
The result is the exact integer: the number the runtime returns is that
integer rounded to a double, which is the same number whenever either lies in
`0..4`, and the negative zero of `"-0"` is the integer `0`. -/
def parseInt (input : JSString) : Option Int :=
  let s := input.dropWhile isStrWhiteSpaceChar
  let negative := s.head? = some '-'
  let s := if s.head? = some '+' ∨ s.head? = some '-' then s.tail else s
  let z := s.takeWhile isDecimalDigit
  if z.isEmpty then none
  else some (if negative then -(digitsValue z : Int) else (digitsValue z : Int))

/-! ## The logger object -/

/-- The constant `logger.LOG_LEVEL_NONE`. -/
def LOG_LEVEL_NONE : Int := 0
/-- The constant `logger.LOG_LEVEL_ERROR`. -/
def LOG_LEVEL_ERROR : Int := 1
/-- The constant `logger.LOG_LEVEL_WARNING`. -/
def LOG_LEVEL_WARNING : Int := 2
/-- The constant `logger.LOG_LEVEL_INFO`. -/
def LOG_LEVEL_INFO : Int := 3
/-- The constant `logger.LOG_LEVEL_DEBUG`. -/
def LOG_LEVEL_DEBUG : Int := 4

/-- A registered callback, known by an identifier. -/
abbrev Listener := Nat

/-- The mutable state of the module: the variable `_logLevel` and the listeners
registered on the two channels of the emitter, in registration order. -/
structure State where
  logLevel : Int
  logObject : List Listener
  logString : List Listener
  deriving DecidableEq, Repr

/-- The state after the module is loaded: `_logLevel = LOG_LEVEL_WARNING`, no
listener registered. -/
def State.initial : State :=
  { logLevel := LOG_LEVEL_WARNING, logObject := [], logString := [] }

/-- The getter of `logger.level`. -/
def State.level (st : State) : Int := st.logLevel

/-- The setter of `logger.level` on a primitive value, whose conversion to a
string cannot raise: `parseInt(val, 10)`, stored when it is between
`LOG_LEVEL_NONE` and `LOG_LEVEL_DEBUG`.  A comparison with `NaN` is false, so
`NaN` is not stored.  `State.assignLevel` is the setter on any value. -/
def State.setLevel (st : State) (val : JSValue) : State :=
  match parseInt val.toJSString with
  | some newLevel =>
    if newLevel ≥ LOG_LEVEL_NONE ∧ newLevel ≤ LOG_LEVEL_DEBUG then
      { st with logLevel := newLevel }
    else st
  | none => st

/-- The function `levelToString`. -/
def levelToString (level : Int) : JSString :=
  if level = LOG_LEVEL_ERROR then "error".toList
  else if level = LOG_LEVEL_WARNING then "warning".toList
  else if level = LOG_LEVEL_INFO then "info".toList
  else if level = LOG_LEVEL_DEBUG then "debug".toList
  else []

/-! ## String methods of the runtime -/

/-- The method `s.indexOf(sub)`: the first position at which `sub` occurs in
`s`; `none` is the result `-1`. -/
def indexOf (s sub : JSString) : Option Nat :=
  if sub.isPrefixOf s then some 0
  else match s with
    | [] => none
    | _ :: cs => (indexOf cs sub).map (· + 1)

/-- The method `s.lastIndexOf(sub)`: the last position at which `sub` occurs in
`s`; `none` is the result `-1`. -/
def lastIndexOf (s sub : JSString) : Option Nat :=
  match s with
  | [] => if sub.isPrefixOf [] then some 0 else none
  | c :: cs =>
    match lastIndexOf cs sub with
    | some i => some (i + 1)
    | none => if sub.isPrefixOf (c :: cs) then some 0 else none

/-- The method `s.split(sep)` for a separator of one character. -/
def split (sep : Char) : JSString → List JSString
  | [] => [[]]
  | c :: cs =>
    if c = sep then [] :: split sep cs
    else match split sep cs with
      | [] => [[c]]
      | l :: ls => (c :: l) :: ls

/-- The method `s.substr(start)`. -/
def substrFrom (s : JSString) (start : Nat) : JSString := s.drop start

/-- The method `s.substr(start, length)`; a `length` below zero selects
nothing, as does the length `0` that a truncated subtraction gives for it. -/
def substr (s : JSString) (start length : Nat) : JSString := (s.drop start).take length

/-- The conversion `String(n)` of a natural number: its decimal digits. -/
def natToJSString (n : Nat) : JSString := Nat.toDigits 10 n

/-! ## `util.format` -/

/-- An argument of `util.format` in this module: a primitive value, or the
array `args` of the trailing arguments of an emission. -/
inductive FmtArg where
  | value (v : JSValue)
  | array (xs : List JSValue)
  deriving DecidableEq, Repr

/-- The text an array element contributes to `Array.prototype.join`:
`undefined` and `null` contribute nothing. -/
def joinElement : JSValue → JSString
  | .undefined => []
  | .null => []
  | v => v.toJSString

/-- The conversion `String(x)`: `ToString` of a primitive, and for an array its
elements joined by commas. -/
def FmtArg.toJSString : FmtArg → JSString
  | .value v => v.toJSString
  | .array xs => List.intercalate [','] (xs.map joinElement)

/-- The conversions of the runtime that `util.format` applies to an argument
and that this development leaves open: `String(Number(x))` for `%d`,
`JSON.stringify(x)` (or `[Circular]`) for `%j`, and `util.inspect(x)`. -/
structure Runtime where
  numberString : FmtArg → JSString
  jsonStringify : FmtArg → JSString
  inspect : FmtArg → JSString

/-- The text that replaces the placeholder `%s`, `%d` or `%j` consuming the
argument `a`. -/
def formatPlaceholder (rt : Runtime) (d : Char) (a : FmtArg) : JSString :=
  if d = 's' then a.toJSString
  else if d = 'd' then rt.numberString a
  else rt.jsonStringify a

/-- The replacement pass of `util.format`: every match of `%[sdj%]`, scanning
from the left, is replaced; `%%` gives `%`, a placeholder with no argument left
stays as it is, any other one consumes the next argument.  Returns the text
and the arguments not consumed. -/
def formatReplace (rt : Runtime) : JSString → List FmtArg → JSString × List FmtArg
  | [], args => ([], args)
  | [c], args => ([c], args)
  | c :: d :: rest, args =>
    if c = '%' ∧ d = '%' then
      let r := formatReplace rt rest args
      ('%' :: r.1, r.2)
    else if c = '%' ∧ (d = 's' ∨ d = 'd' ∨ d = 'j') then
      match args with
      | [] =>
        let r := formatReplace rt rest []
        (c :: d :: r.1, r.2)
      | a :: as =>
        let r := formatReplace rt rest as
        (formatPlaceholder rt d a ++ r.1, r.2)
    else
      let r := formatReplace rt (d :: rest) args
      (c :: r.1, r.2)

/-- The text `util.format` appends for an argument no placeholder consumed:
a space and the value itself when it is `null` or no object, a space and its
inspection when it is an object. -/
def formatRest (rt : Runtime) : FmtArg → JSString
  | .value v => ' ' :: v.toJSString
  | .array xs => ' ' :: rt.inspect (.array xs)

/-- Modelled from the spec: `util.format` is the printf-style formatter of the
Node runtime (spec 4.3 e and 9: `%s`, `%d`, literal `%%`, missing and extra
arguments left to the formatter), which the module requires and does not
define.  A first argument that is no string gives the inspections of all
arguments joined by spaces; a string has its placeholders replaced and the
arguments left over appended. -/
def utilFormat (rt : Runtime) (f : FmtArg) (args : List FmtArg) : JSString :=
  match f with
  | .value (.string s) =>
    let r := formatReplace rt s args
    r.1 ++ (r.2.map (formatRest rt)).flatten
  | _ => List.intercalate [' '] ((f :: args).map rt.inspect)

/-- A string as an argument of `util.format`. -/
def FmtArg.str (s : JSString) : FmtArg := .value (.string s)

/-! ## Time and call location -/

/-- The error a JavaScript operation raises. -/
inductive JSError where
  | typeError
  deriving DecidableEq, Repr

/-- A `Date`, as far as the module reads it: the results of `getHours()`,
`getMinutes()`, `getSeconds()` and `getMilliseconds()`. -/
structure Date where
  hours : Nat
  minutes : Nat
  seconds : Nat
  milliseconds : Nat
  deriving DecidableEq, Repr

/-- The results of the getters of a `Date` lie in `0..23`, `0..59`, `0..59`
and `0..999`. -/
def Date.InRange (d : Date) : Prop :=
  d.hours < 24 ∧ d.minutes < 60 ∧ d.seconds < 60 ∧ d.milliseconds < 1000

instance (d : Date) : Decidable d.InRange := by
  unfold Date.InRange; infer_instance

/-- The loop of the local function `padString`: `i` zeros are put in front. -/
def padLoop (s : JSString) : Nat → JSString
  | 0 => s
  | i + 1 => padLoop ('0' :: s) i

/-- The local function `padString` of `dateToMilliTimeString`. -/
def padString (s : JSString) (places : Nat) : JSString :=
  padLoop s (places - s.length)

/-- The function `dateToMilliTimeString`; calling a getter of `null` raises. -/
def dateToMilliTimeString (rt : Runtime) (date : Option Date) : Except JSError JSString :=
  match date with
  | none => .error .typeError
  | some date =>
    .ok (utilFormat rt (.str "%s:%s:%s.%s".toList)
      [.str (padString (natToJSString date.hours) 2),
       .str (padString (natToJSString date.minutes) 2),
       .str (padString (natToJSString date.seconds) 2),
       .str (padString (natToJSString date.milliseconds) 3)])

/-- The object `getCallLocationFromStackString` returns. -/
structure CallLocation where
  long : JSString
  short : JSString
  deriving DecidableEq, Repr

/-- The function `getCallLocationFromStackString`.  The line is element
`entry + 1` of the split stack text; an absent or empty line is falsy.  The
statement `shortLocation.substr(slashLocation + 1);` of the source computes a
value and drops it, so `shortLocation` is what the parenthesis step left. -/
def getCallLocationFromStackString (stackString : JSString) (entry : Nat) : CallLocation :=
  match (split '\n' stackString).get? (entry + 1) with
  | none => { long := [], short := [] }
  | some line =>
    if line.isEmpty then { long := [], short := [] }
    else match indexOf line "at ".toList with
      | none => { long := [], short := [] }
      | some i =>
        let longLocation := substrFrom line (i + 3)
        let shortLocation := longLocation
        let shortLocation :=
          match indexOf shortLocation "(".toList with
          | some parenLocation =>
            substr shortLocation (parenLocation + 1) (shortLocation.length - parenLocation - 2)
          | none => shortLocation
        let _dropped :=
          match lastIndexOf shortLocation "/".toList with
          | some slashLocation => substrFrom shortLocation (slashLocation + 1)
          | none => shortLocation
        { long := longLocation, short := shortLocation }

/-! ## Emission -/

/-- What an emission reads from its surroundings: the clock (`new Date()`) and
the text of the captured stack (`(new Error()).stack`). -/
structure Env where
  now : Date
  stack : JSString
  deriving DecidableEq, Repr

/-- The two channels of the emitter. -/
inductive Channel where
  | logObject
  | logString
  deriving DecidableEq, Repr

/-- What `logger.emit` is called with: on `logObject` the level name, the
time (`null` is `none`), the long location, the message and the array of
arguments; on `logString` one string. -/
inductive Event where
  | logObject (levelName : JSString) (time : Option Date) (longLocation : JSString)
      (message : JSValue) (args : List JSValue)
  | logString (line : JSString)
  deriving DecidableEq, Repr

/-- The channel an event is emitted on. -/
def Event.channel : Event → Channel
  | .logObject .. => .logObject
  | .logString _ => .logString

/-- What an emission does, in order: calls of `console.log` and of
`logger.emit`. -/
inductive Action where
  | consoleLog (text : JSString)
  | emit (event : Event)
  deriving DecidableEq, Repr

/-- The listeners of a channel. -/
def State.listeners (st : State) : Channel → List Listener
  | .logObject => st.logObject
  | .logString => st.logString

/-- The function `EventEmitter.listenerCount(logger, channel)`. -/
def State.listenerCount (st : State) (channel : Channel) : Nat :=
  (st.listeners channel).length

/-- The function `doLog`.  `callLocation` and `time` are `null` (`none`) until
captured; reading a property of `null` raises. -/
def doLog (rt : Runtime) (st : State) (env : Env) (level : Int) (message : JSValue)
    (args : List JSValue) : Except JSError (List Action) :=
  if st.level ≥ level then
    let logObjectListeners := st.listenerCount .logObject
    let logStringListeners := st.listenerCount .logString
    let captured : Option CallLocation × Option Date × List Action :=
      if logObjectListeners + logStringListeners > 0 then
        (some (getCallLocationFromStackString env.stack 3), some env.now, [])
      else
        (none, none, [.consoleLog "log event above level, but no listeners".toList])
    let callLocation := captured.1
    let time := captured.2.1
    do
      let objectActions ←
        if logObjectListeners > 0 then
          match callLocation with
          | none => .error .typeError
          | some loc =>
            .ok [Action.emit (.logObject (levelToString level) time loc.long message args)]
        else .ok []
      let stringActions ←
        if logStringListeners > 0 then do
          let dateString ← dateToMilliTimeString rt time
          match callLocation with
          | none => .error .typeError
          | some loc =>
            .ok [Action.emit (.logString
              (utilFormat rt (.str "[%s %s %s] ".toList)
                  [.str (levelToString level), .str dateString, .str loc.short] ++
                utilFormat rt (.value message) [.array args]))]
        else .ok []
      pure (captured.2.2 ++ objectActions ++ stringActions)
  else
    .ok [.consoleLog "log event below level".toList]

/-- The function `makeLogMethod`: the method it returns, applied to its
`arguments`. -/
def makeLogMethod (rt : Runtime) (level : Int) (st : State) (env : Env)
    (arguments : List JSValue) : Except JSError (List Action) :=
  let first := arguments.head?.getD .undefined
  let message := if first.toBoolean then first else .string []
  let args := arguments.drop 1
  doLog rt st env level message args

/-- The method `logger.debug`. -/
def debug (rt : Runtime) := makeLogMethod rt LOG_LEVEL_DEBUG
/-- The method `logger.info`. -/
def info (rt : Runtime) := makeLogMethod rt LOG_LEVEL_INFO
/-- The method `logger.warn`. -/
def warn (rt : Runtime) := makeLogMethod rt LOG_LEVEL_WARNING
/-- The method `logger.error`. -/
def error (rt : Runtime) := makeLogMethod rt LOG_LEVEL_ERROR
/-- The method `logger.warning`, assigned from `logger.warn`. -/
def warning (rt : Runtime) := warn rt
/-- The method `logger.log`, assigned from `logger.info`. -/
def log (rt : Runtime) := info rt

/-! ## Delivery to listeners -/

/-- One call of a listener. -/
structure Notification where
  listener : Listener
  event : Event
  deriving DecidableEq, Repr

/-- The method `logger.emit` of the emitter: every listener of the event's
channel is called once with the event, in registration order. -/
def State.emit (st : State) (event : Event) : List Notification :=
  (st.listeners event.channel).map (fun l => { listener := l, event := event })

/-- The calls of listeners a list of actions makes. -/
def State.notifications (st : State) : List Action → List Notification
  | [] => []
  | .consoleLog _ :: rest => st.notifications rest
  | .emit event :: rest => st.emit event ++ st.notifications rest

/-- The events a list of actions emits on a channel. -/
def emitted (channel : Channel) : List Action → List Event
  | [] => []
  | .consoleLog _ :: rest => emitted channel rest
  | .emit event :: rest =>
    if event.channel = channel then event :: emitted channel rest else emitted channel rest

/-- The events delivered to the listeners of a channel by a list of actions. -/
def State.delivered (st : State) (channel : Channel) (actions : List Action) :
    List Notification :=
  (st.notifications actions).filter (fun n => decide (n.event.channel = channel))

/-! ## Closed forms used in the statements -/

/-- The four severities the public methods emit at. -/
def publicLevels : List Int :=
  [LOG_LEVEL_ERROR, LOG_LEVEL_WARNING, LOG_LEVEL_INFO, LOG_LEVEL_DEBUG]

/-- The lowercase names of the four severities. -/
def severityNames : List (Int × JSString) :=
  [(LOG_LEVEL_ERROR, "error".toList), (LOG_LEVEL_WARNING, "warning".toList),
   (LOG_LEVEL_INFO, "info".toList), (LOG_LEVEL_DEBUG, "debug".toList)]

/-- Whether a string has the shape of a template in which `D` stands for a
decimal digit and every other character for itself. -/
def hasShape : JSString → JSString → Bool
  | [], [] => true
  | t :: ts, c :: cs => (if t = 'D' then isDecimalDigit c else c == t) && hasShape ts cs
  | _, _ => false

/-- The text `dateToMilliTimeString` renders for a date: the four padded
fields with their separators. -/
def milliTime (d : Date) : JSString :=
  padString (natToJSString d.hours) 2 ++ ':' ::
    (padString (natToJSString d.minutes) 2 ++ ':' ::
      (padString (natToJSString d.seconds) 2 ++ '.' ::
        padString (natToJSString d.milliseconds) 3))

/-- The line `doLog` builds for the `logString` channel. -/
def logLine (rt : Runtime) (env : Env) (level : Int) (message : JSValue) (args : List JSValue) :
    JSString :=
  '[' :: (levelToString level ++ ' ' :: (milliTime env.now ++ ' ' ::
    ((getCallLocationFromStackString env.stack 3).short ++ [']', ' ']))) ++
    utilFormat rt (.value message) [.array args]

/-- The event `doLog` builds for the `logObject` channel. -/
def objectEvent (env : Env) (level : Int) (message : JSValue) (args : List JSValue) : Event :=
  .logObject (levelToString level) (some env.now)
    (getCallLocationFromStackString env.stack 3).long message args

/-! ## Sequences of operations on the logger -/

/-- The public emission methods. -/
inductive Method where
  | debug | info | warn | error | warning | log
  deriving DecidableEq, Repr

/-- A call of a public emission method. -/
def Method.invoke (rt : Runtime) : Method → State → Env → List JSValue →
    Except JSError (List Action)
  | .debug => Logger.debug rt
  | .info => Logger.info rt
  | .warn => Logger.warn rt
  | .error => Logger.error rt
  | .warning => Logger.warning rt
  | .log => Logger.log rt

/-- The method `logger.addListener(channel, listener)` of the emitter (also
`logger.on`): the listener is added after those registered before. -/
def State.addListener (st : State) (channel : Channel) (listener : Listener) : State :=
  match channel with
  | .logObject => { st with logObject := st.logObject ++ [listener] }
  | .logString => { st with logString := st.logString ++ [listener] }

/-- What a client does with the logger: assign to `level`, call an emission
method, register a listener. -/
inductive Op where
  | assign (val : JSValue)
  | call (method : Method) (env : Env) (arguments : List JSValue)
  | addListener (channel : Channel) (listener : Listener)

/-- One operation: the state after it and the calls of listeners it made.  An
emission assigns no variable of the module. -/
def step (rt : Runtime) (st : State) : Op → State × List Notification
  | .assign val => (st.setLevel val, [])
  | .call method env arguments =>
    match method.invoke rt st env arguments with
    | .ok actions => (st, st.notifications actions)
    | .error _ => (st, [])
  | .addListener channel listener => (st.addListener channel listener, [])

/-- A sequence of operations, from the left. -/
def run (rt : Runtime) : State → List Op → State × List Notification
  | st, [] => (st, [])
  | st, op :: ops =>
    let r := step rt st op
    let r' := run rt r.1 ops
    (r'.1, r.2 ++ r'.2)

/-! ## Sample inputs -/

/-- A runtime for the sample emissions.  Its three conversions give the empty
text; no statement about a sample emission depends on what they give. -/
def Runtime.blank : Runtime :=
  { numberString := fun _ => [], jsonStringify := fun _ => [], inspect := fun _ => [] }

/-- A clock reading: 09:05:03.042. -/
def sampleDate : Date := { hours := 9, minutes := 5, seconds := 3, milliseconds := 42 }

/-- A stack as the engine prints it for `logger.info(...)` called at
`/home/user/app/main.js:10:8`. -/
def sampleStack : JSString :=
  ("Error\n" ++
   "    at doLog (/opt/generator/lib/logger.js:167:56)\n" ++
   "    at EventEmitter.<anonymous> (/opt/generator/lib/logger.js:192:13)\n" ++
   "    at Object.<anonymous> (/home/user/app/main.js:10:8)\n" ++
   "    at Module._compile (module.js:456:26)").toList

/-- The sample surroundings of an emission. -/
def sampleEnv : Env := { now := sampleDate, stack := sampleStack }

/-- The logger after `logger.level = 4` with listener 1 on `logObject` and
listener 2 on `logString`. -/
def sampleState : State := { logLevel := 4, logObject := [1], logString := [2] }

/-- The logger at its default threshold with the same two listeners. -/
def defaultState : State := { logLevel := LOG_LEVEL_WARNING, logObject := [1], logString := [2] }

/-- The logger after `logger.level = 4` with no listener. -/
def silentState : State := { logLevel := 4, logObject := [], logString := [] }

/-- The arguments of `info("%s has %d items", "cart", 3)`. -/
def cartArguments : List JSValue :=
  [.string "%s has %d items".toList, .string "cart".toList, .number "3".toList]

/-- The message `makeLogMethod` hands to `doLog`: `arguments[0] || ""`, where
an absent first argument reads as `undefined`. -/
def handedMessage (arguments : List JSValue) : JSValue :=
  let first := arguments.head?.getD .undefined
  if first.toBoolean then first else .string []

/-- The array `makeLogMethod` hands to `doLog`:
`Array.prototype.slice.call(arguments, 1)`. -/
def handedArgs (arguments : List JSValue) : List JSValue := arguments.drop 1

/-- A stack with no frame line. -/
def frameless : JSString := "Error: something broke\n    (no frames)".toList

/-- A stack whose first frame is the second sample of the comment in
`getCallLocationFromStackString`. -/
def commentStack : JSString :=
  "Error\n    at EventEmitter.error (/some/place/on/disk/logger.js:153:13)".toList

/-- A stack whose first frame is the first sample of that comment. -/
def replStack : JSString := "Error\n    at repl:1:6".toList

/-! ## Assignment of any value to `level` -/

/-- Any value a caller can assign to `level`: a primitive, a symbol, or an
object, given by what its conversion to a string does: the text it returns,
or the error it raises (`Object.create(null)` has neither `toString` nor
`valueOf`, so its conversion raises a `TypeError`). -/
inductive AnyValue where
  | primitive (v : JSValue)
  | symbol
  | object (conversion : Except JSError JSString)

/-- The abstract operation `ToString` on any value: it raises a `TypeError`
for a symbol and does for an object what the object's conversion does. -/
def AnyValue.toJSString : AnyValue → Except JSError JSString
  | .primitive v => .ok v.toJSString
  | .symbol => .error .typeError
  | .object conversion => conversion

/-- The setter of `logger.level` on any value: the state after the assignment
and the error it raised, if any.  `parseInt(val, 10)` first converts `val` to a
string; when that raises, the setter is left before `_logLevel` is assigned. -/
def State.assignLevel (st : State) (val : AnyValue) : State × Option JSError :=
  match val.toJSString with
  | .error e => (st, some e)
  | .ok input =>
    match parseInt input with
    | some newLevel =>
      if newLevel ≥ LOG_LEVEL_NONE ∧ newLevel ≤ LOG_LEVEL_DEBUG then
        ({ st with logLevel := newLevel }, none)
      else (st, none)
    | none => (st, none)

/-- The object `Object.create(null)`. -/
def nullPrototypeObject : AnyValue := .object (.error .typeError)

/-- The array `[3]`, whose conversion to a string returns `3`. -/
def arrayOfThree : AnyValue := .object (.ok "3".toList)

/-! ## Lemmas -/

theorem utilFormat_bracket (rt : Runtime) (a b c : JSString) :
    utilFormat rt (.str ['[', '%', 's', ' ', '%', 's', ' ', '%', 's', ']', ' '])
        [.str a, .str b, .str c] =
      '[' :: (a ++ ' ' :: (b ++ ' ' :: (c ++ [']', ' ']))) := by
  simp [utilFormat, FmtArg.str, formatReplace, formatPlaceholder, FmtArg.toJSString,
    JSValue.toJSString]

theorem dateToMilliTimeString_some (rt : Runtime) (d : Date) :
    dateToMilliTimeString rt (some d) = .ok (milliTime d) := by
  simp [dateToMilliTimeString, milliTime, utilFormat, FmtArg.str, formatReplace,
    formatPlaceholder, FmtArg.toJSString, JSValue.toJSString]

theorem doLog_of_lt (rt : Runtime) (st : State) (env : Env) (level : Int) (message : JSValue)
    (args : List JSValue) (h : st.level < level) :
    doLog rt st env level message args = .ok [.consoleLog "log event below level".toList] := by
  unfold doLog
  rw [if_neg (not_le.mpr h)]

theorem doLog_of_ge (rt : Runtime) (st : State) (env : Env) (level : Int) (message : JSValue)
    (args : List JSValue) (h : level ≤ st.level) :
    doLog rt st env level message args = .ok (
      (if st.logObject = [] ∧ st.logString = [] then
        [.consoleLog "log event above level, but no listeners".toList] else []) ++
      (if st.logObject = [] then [] else [.emit (objectEvent env level message args)]) ++
      (if st.logString = [] then []
        else [.emit (.logString (logLine rt env level message args))])) := by
  unfold doLog
  rw [if_pos (ge_iff_le.mpr h)]
  rcases st with ⟨lv, lo, ls⟩
  cases lo <;> cases ls <;>
    simp [State.listenerCount, State.listeners, objectEvent, logLine,
      dateToMilliTimeString_some, utilFormat_bracket, bind, Except.bind, pure, Except.pure]

theorem notifications_of_ge (rt : Runtime) (st : State) (env : Env) (level : Int)
    (message : JSValue) (args : List JSValue) (h : level ≤ st.level) :
    ∃ actions, doLog rt st env level message args = .ok actions ∧
      st.notifications actions =
        st.logObject.map (fun l => ⟨l, objectEvent env level message args⟩) ++
        st.logString.map (fun l => ⟨l, .logString (logLine rt env level message args)⟩) ∧
      emitted .logObject actions =
        (if st.logObject = [] then [] else [objectEvent env level message args]) ∧
      emitted .logString actions =
        (if st.logString = [] then []
          else [.logString (logLine rt env level message args)]) := by
  refine ⟨_, doLog_of_ge rt st env level message args h, ?_, ?_, ?_⟩ <;>
    rcases st with ⟨lv, lo, ls⟩ <;> cases lo <;> cases ls <;>
    simp [State.notifications, State.emit, State.listeners, Event.channel, emitted, objectEvent]

theorem filter_map_channel (ls : List Listener) (e : Event) (c : Channel) :
    (ls.map (fun l => (⟨l, e⟩ : Notification))).filter
        (fun n => decide (n.event.channel = c)) =
      if e.channel = c then ls.map (fun l => ⟨l, e⟩) else [] := by
  induction ls with
  | nil => simp
  | cons a t ih =>
    by_cases hc : e.channel = c <;> simp [List.filter_cons, hc] at ih ⊢

theorem delivered_of_ge (rt : Runtime) (st : State) (env : Env) (level : Int)
    (message : JSValue) (args : List JSValue) (h : level ≤ st.level) :
    ∃ actions, doLog rt st env level message args = .ok actions ∧
      st.delivered .logObject actions =
        st.logObject.map (fun l => ⟨l, objectEvent env level message args⟩) ∧
      st.delivered .logString actions =
        st.logString.map (fun l => ⟨l, .logString (logLine rt env level message args)⟩) := by
  obtain ⟨actions, hok, hn, -, -⟩ := notifications_of_ge rt st env level message args h
  refine ⟨actions, hok, ?_, ?_⟩ <;>
    simp only [State.delivered, hn, List.filter_append, filter_map_channel] <;>
    simp [objectEvent, Event.channel]

theorem levelToString_public (L : Int) (hL : L ∈ publicLevels) :
    (L, levelToString L) ∈ severityNames := by
  simp only [publicLevels, List.mem_cons, List.mem_singleton, List.not_mem_nil, or_false] at hL
  rcases hL with rfl | rfl | rfl | rfl <;> decide

/-- C1. An emission at a severity above the threshold (`threshold < L`) only
writes the diagnostic note to the console: nothing is emitted on either
channel and no listener is called, whatever the arguments and however many
listeners are registered. -/
theorem below_threshold_is_silent (rt : Runtime) (st : State) (env : Env) (L : Int)
    (arguments : List JSValue) (hlt : st.level < L) :
    ∃ actions, makeLogMethod rt L st env arguments = .ok actions ∧
      st.notifications actions = [] ∧
      emitted .logObject actions = [] ∧ emitted .logString actions = [] := by
  refine ⟨[.consoleLog "log event below level".toList], ?_, rfl, rfl, rfl⟩
  exact doLog_of_lt rt st env L _ _ hlt

theorem below_threshold_is_silent_at_default :
    defaultState.level < LOG_LEVEL_INFO ∧
    ∃ actions, info Runtime.blank defaultState sampleEnv cartArguments = .ok actions ∧
      defaultState.notifications actions = [] ∧
      emitted .logObject actions = [] ∧ emitted .logString actions = [] :=
  ⟨by decide,
   below_threshold_is_silent Runtime.blank defaultState sampleEnv LOG_LEVEL_INFO cartArguments
     (by decide)⟩

/-- C2. An emission of a string message through a public method, at a
severity `L` the threshold admits and with a listener on `logObject`, emits
exactly one event on that channel: the lowercase name of `L` (one of the four,
so never empty), the captured time and the long location (neither is `null`),
the message, and the trailing arguments in order; every `logObject` listener
is called once with it. -/
theorem logObject_notified_once (rt : Runtime) (st : State) (env : Env) (L : Int)
    (m : JSString) (rest : List JSValue)
    (hL : L ∈ publicLevels) (hge : L ≤ st.level) (hsub : 0 < st.listenerCount .logObject) :
    ∃ actions longLocation,
      makeLogMethod rt L st env (.string m :: rest) = .ok actions ∧
      longLocation = (getCallLocationFromStackString env.stack 3).long ∧
      emitted .logObject actions =
        [.logObject (levelToString L) (some env.now) longLocation (.string m) rest] ∧
      st.delivered .logObject actions = st.logObject.map (fun l =>
        ⟨l, .logObject (levelToString L) (some env.now) longLocation (.string m) rest⟩) ∧
      (L, levelToString L) ∈ severityNames ∧ levelToString L ≠ [] := by
  have hmsg : (if (JSValue.string m).toBoolean then JSValue.string m else .string []) =
      .string m := by
    cases m <;> simp [JSValue.toBoolean]
  have hne : st.logObject ≠ [] := by
    intro h0
    simp [State.listenerCount, State.listeners, h0] at hsub
  obtain ⟨actions, hok, -, hobj, -⟩ := notifications_of_ge rt st env L (.string m) rest hge
  obtain ⟨actions', hok', hdel, -⟩ := delivered_of_ge rt st env L (.string m) rest hge
  have hsame : actions' = actions := by
    rw [hok] at hok'
    exact (Except.ok.inj hok').symm
  subst hsame
  refine ⟨actions', _, ?_, rfl, ?_, ?_, levelToString_public L hL, ?_⟩
  · simp only [makeLogMethod, List.head?_cons, Option.getD_some, hmsg, List.drop_one,
      List.tail_cons]
    exact hok
  · rw [hobj, if_neg hne]; rfl
  · rw [hdel]; rfl
  · simp only [publicLevels, List.mem_cons, List.mem_singleton, List.not_mem_nil, or_false] at hL
    rcases hL with rfl | rfl | rfl | rfl <;> decide

theorem logObject_notified_once_sample :
    LOG_LEVEL_INFO ∈ publicLevels ∧ LOG_LEVEL_INFO ≤ sampleState.level ∧
    0 < sampleState.listenerCount .logObject ∧
    ∃ actions longLocation,
      makeLogMethod Runtime.blank LOG_LEVEL_INFO sampleState sampleEnv
        (.string "%s has %d items".toList :: [.string "cart".toList, .number "3".toList]) =
          .ok actions ∧
      longLocation = (getCallLocationFromStackString sampleEnv.stack 3).long ∧
      emitted .logObject actions =
        [.logObject (levelToString LOG_LEVEL_INFO) (some sampleEnv.now) longLocation
          (.string "%s has %d items".toList) [.string "cart".toList, .number "3".toList]] ∧
      sampleState.delivered .logObject actions = sampleState.logObject.map (fun l =>
        ⟨l, .logObject (levelToString LOG_LEVEL_INFO) (some sampleEnv.now) longLocation
          (.string "%s has %d items".toList) [.string "cart".toList, .number "3".toList]⟩) ∧
      (LOG_LEVEL_INFO, levelToString LOG_LEVEL_INFO) ∈ severityNames ∧
      levelToString LOG_LEVEL_INFO ≠ [] :=
  ⟨by decide, by decide, by decide,
   logObject_notified_once Runtime.blank sampleState sampleEnv LOG_LEVEL_INFO
     "%s has %d items".toList [.string "cart".toList, .number "3".toList]
     (by decide) (by decide) (by decide)⟩

theorem digitChar_isDecimalDigit : ∀ k < 10, isDecimalDigit (Nat.digitChar k) = true := by
  decide

theorem padString_two : ∀ n < 100,
    padString (natToJSString n) 2 = [Nat.digitChar (n / 10), Nat.digitChar (n % 10)] := by
  decide

set_option maxRecDepth 100000 in
theorem padString_three : ∀ n < 1000,
    padString (natToJSString n) 3 =
      [Nat.digitChar (n / 100), Nat.digitChar (n / 10 % 10), Nat.digitChar (n % 10)] := by
  decide

theorem milliTime_shape (d : Date) (hd : d.InRange) :
    hasShape "DD:DD:DD.DDD".toList (milliTime d) = true := by
  obtain ⟨hh, hm, hs, hms⟩ := hd
  have d1 : ∀ n, n < 100 → isDecimalDigit (Nat.digitChar (n / 10)) = true :=
    fun n hn => digitChar_isDecimalDigit _ (by omega)
  have d2 : ∀ n, isDecimalDigit (Nat.digitChar (n % 10)) = true :=
    fun n => digitChar_isDecimalDigit _ (by omega)
  have d3 : ∀ n, n < 1000 → isDecimalDigit (Nat.digitChar (n / 100)) = true :=
    fun n hn => digitChar_isDecimalDigit _ (by omega)
  simp [milliTime, padString_two _ (show d.hours < 100 by omega),
    padString_two _ (show d.minutes < 100 by omega),
    padString_two _ (show d.seconds < 100 by omega), padString_three _ hms, hasShape,
    d1 _ (show d.hours < 100 by omega), d1 _ (show d.minutes < 100 by omega),
    d1 _ (show d.seconds < 100 by omega), d2, d3 _ hms]

/-- C3. An emission at a severity `L` the threshold admits, with a listener on
`logString` and a clock reading in range, emits exactly one event on that
channel, a single string: `[`, the lowercase name of `L`, one space, a
timestamp of the shape `DD:DD:DD.DDD`, and more text; every `logString`
listener is called once with it. -/
theorem logString_line_start (rt : Runtime) (st : State) (env : Env) (L : Int)
    (arguments : List JSValue)
    (hL : L ∈ publicLevels) (hge : L ≤ st.level) (hsub : 0 < st.listenerCount .logString)
    (hnow : env.now.InRange) :
    ∃ actions stamp rest,
      makeLogMethod rt L st env arguments = .ok actions ∧
      emitted .logString actions =
        [.logString ('[' :: (levelToString L ++ ' ' :: (stamp ++ rest)))] ∧
      st.delivered .logString actions = st.logString.map (fun l =>
        ⟨l, .logString ('[' :: (levelToString L ++ ' ' :: (stamp ++ rest)))⟩) ∧
      (L, levelToString L) ∈ severityNames ∧
      hasShape "DD:DD:DD.DDD".toList stamp = true := by
  have hne : st.logString ≠ [] := by
    intro h0
    simp [State.listenerCount, State.listeners, h0] at hsub
  obtain ⟨actions, hok, -, -, hstr⟩ := notifications_of_ge rt st env L _ _ hge
  obtain ⟨actions', hok', -, hdel⟩ := delivered_of_ge rt st env L _ _ hge
  have hsame : actions' = actions := by
    rw [hok] at hok'
    exact (Except.ok.inj hok').symm
  subst hsame
  refine ⟨actions', milliTime env.now,
    ' ' :: ((getCallLocationFromStackString env.stack 3).short ++ [']', ' ']) ++
      utilFormat rt (.value (if (arguments.head?.getD .undefined).toBoolean then
        arguments.head?.getD .undefined else .string [])) [.array (arguments.drop 1)],
    hok, ?_, ?_, levelToString_public L hL, milliTime_shape env.now hnow⟩
  · rw [hstr, if_neg hne]
    simp [logLine]
  · rw [hdel]
    simp [logLine]

theorem logString_line_start_sample :
    LOG_LEVEL_INFO ∈ publicLevels ∧ LOG_LEVEL_INFO ≤ sampleState.level ∧
    0 < sampleState.listenerCount .logString ∧ sampleEnv.now.InRange ∧
    ∃ actions stamp rest,
      makeLogMethod Runtime.blank LOG_LEVEL_INFO sampleState sampleEnv cartArguments =
        .ok actions ∧
      emitted .logString actions =
        [.logString ('[' :: (levelToString LOG_LEVEL_INFO ++ ' ' :: (stamp ++ rest)))] ∧
      sampleState.delivered .logString actions = sampleState.logString.map (fun l =>
        ⟨l, .logString ('[' :: (levelToString LOG_LEVEL_INFO ++ ' ' :: (stamp ++ rest)))⟩) ∧
      (LOG_LEVEL_INFO, levelToString LOG_LEVEL_INFO) ∈ severityNames ∧
      hasShape "DD:DD:DD.DDD".toList stamp = true :=
  ⟨by decide, by decide, by decide, by decide,
   logString_line_start Runtime.blank sampleState sampleEnv LOG_LEVEL_INFO cartArguments
     (by decide) (by decide) (by decide) (by decide)⟩

/-- C4 (the code at the failing input). With the threshold at INFO and a
listener on `logString`, `info("%s has %d items", "cart", 3)` hands
`util.format` the template and the array of the trailing arguments as one
argument: the first placeholder consumes the whole array, the second is left
as it is, and the line delivered does not contain `cart has 3 items`. -/
theorem info_cart_line (rt : Runtime) :
    info rt { logLevel := LOG_LEVEL_INFO, logObject := [], logString := [2] } sampleEnv
        cartArguments =
      .ok [.emit (.logString
        "[info 09:05:03.042 module.js:456:26] cart,3 has %d items".toList)] ∧
    ¬ ("cart has 3 items".toList <:+:
        "[info 09:05:03.042 module.js:456:26] cart,3 has %d items".toList) := by
  refine ⟨rfl, ?_⟩
  decide

/-- C7. An emission at a severity the threshold admits emits one event on
`logObject` when that channel has a listener and none otherwise, one event on
`logString` when that channel has a listener and none otherwise, and calls
every listener of a channel exactly once. -/
theorem one_event_per_channel (rt : Runtime) (st : State) (env : Env) (L : Int)
    (arguments : List JSValue) (hge : L ≤ st.level) :
    ∃ actions, makeLogMethod rt L st env arguments = .ok actions ∧
      (emitted .logObject actions).length =
        (if 0 < st.listenerCount .logObject then 1 else 0) ∧
      (emitted .logString actions).length =
        (if 0 < st.listenerCount .logString then 1 else 0) ∧
      (st.delivered .logObject actions).map (·.listener) = st.logObject ∧
      (st.delivered .logString actions).map (·.listener) = st.logString := by
  obtain ⟨actions, hok, -, hobj, hstr⟩ := notifications_of_ge rt st env L _ _ hge
  obtain ⟨actions', hok', hdo, hds⟩ := delivered_of_ge rt st env L _ _ hge
  have hsame : actions' = actions := by
    rw [hok] at hok'
    exact (Except.ok.inj hok').symm
  subst hsame
  refine ⟨actions', hok, ?_, ?_, ?_, ?_⟩
  · rw [hobj]
    rcases st with ⟨lv, lo, ls⟩
    cases lo <;> simp [State.listenerCount, State.listeners]
  · rw [hstr]
    rcases st with ⟨lv, lo, ls⟩
    cases ls <;> simp [State.listenerCount, State.listeners]
  · rw [hdo]; simp [Function.comp_def]
  · rw [hds]; simp [Function.comp_def]

theorem debug_hi_once_each :
    LOG_LEVEL_DEBUG ≤ sampleState.level ∧
    ∃ actions, debug Runtime.blank sampleState sampleEnv [.string "hi".toList] = .ok actions ∧
      (emitted .logObject actions).length =
        (if 0 < sampleState.listenerCount .logObject then 1 else 0) ∧
      (emitted .logString actions).length =
        (if 0 < sampleState.listenerCount .logString then 1 else 0) ∧
      (sampleState.delivered .logObject actions).map (·.listener) = sampleState.logObject ∧
      (sampleState.delivered .logString actions).map (·.listener) = sampleState.logString :=
  ⟨by decide,
   one_event_per_channel Runtime.blank sampleState sampleEnv LOG_LEVEL_DEBUG
     [.string "hi".toList] (by decide)⟩

/-- C8. An emission at a severity the threshold admits, with no listener on
either channel, returns normally: it writes the diagnostic note, emits nothing
and calls no listener; the `null` time and call location are not read. -/
theorem no_listeners_no_raise (rt : Runtime) (st : State) (env : Env) (L : Int)
    (arguments : List JSValue) (hge : L ≤ st.level)
    (hobj : st.listenerCount .logObject = 0) (hstr : st.listenerCount .logString = 0) :
    ∃ actions, makeLogMethod rt L st env arguments = .ok actions ∧
      actions = [.consoleLog "log event above level, but no listeners".toList] ∧
      st.notifications actions = [] ∧
      emitted .logObject actions = [] ∧ emitted .logString actions = [] := by
  have ho : st.logObject = [] := by
    simpa [State.listenerCount, State.listeners] using hobj
  have hs : st.logString = [] := by
    simpa [State.listenerCount, State.listeners] using hstr
  refine ⟨_, doLog_of_ge rt st env L _ _ hge, ?_, ?_, ?_, ?_⟩ <;> simp [ho, hs] <;> rfl

theorem no_listeners_no_raise_sample :
    LOG_LEVEL_ERROR ≤ silentState.level ∧
    silentState.listenerCount .logObject = 0 ∧ silentState.listenerCount .logString = 0 ∧
    ∃ actions, makeLogMethod Runtime.blank LOG_LEVEL_ERROR silentState sampleEnv cartArguments =
        .ok actions ∧
      actions = [.consoleLog "log event above level, but no listeners".toList] ∧
      silentState.notifications actions = [] ∧
      emitted .logObject actions = [] ∧ emitted .logString actions = [] :=
  ⟨by decide, by decide, by decide,
   no_listeners_no_raise Runtime.blank silentState sampleEnv LOG_LEVEL_ERROR cartArguments
     (by decide) (by decide) (by decide)⟩

/-- C9. The method `warning` does what `warn` does and `log` does what `info`
does: the same result, hence the same events and the same calls of listeners,
for every runtime, state, clock, stack and argument list. -/
theorem aliases_agree (rt : Runtime) (st : State) (env : Env) (arguments : List JSValue) :
    warning rt st env arguments = warn rt st env arguments ∧
    log rt st env arguments = info rt st env arguments ∧
    Method.invoke rt .warning st env arguments = Method.invoke rt .warn st env arguments ∧
    Method.invoke rt .log st env arguments = Method.invoke rt .info st env arguments :=
  ⟨rfl, rfl, rfl, rfl⟩

/-- C10 (the claim fails). For `info("%s has %d items", "cart", 3)` at
09:05:03.042 the line delivered is
`[info 09:05:03.042 module.js:456:26] cart,3 has %d items`: it does not start
with `[info 09:05:03.042] `, and the short location `module.js:456:26` stands
in it. -/
theorem logString_line_carries_location :
    (info Runtime.blank sampleState sampleEnv cartArguments).toOption.map
        (emitted .logString) =
      some [.logString "[info 09:05:03.042 module.js:456:26] cart,3 has %d items".toList] ∧
    (getCallLocationFromStackString sampleEnv.stack 3).short = "module.js:456:26".toList ∧
    ¬ ("[info 09:05:03.042] ".toList <+:
        "[info 09:05:03.042 module.js:456:26] cart,3 has %d items".toList) ∧
    "module.js:456:26".toList <:+:
        "[info 09:05:03.042 module.js:456:26] cart,3 has %d items".toList := by
  refine ⟨rfl, rfl, ?_, ?_⟩ <;> decide

/-- C10 (amended). An emission at a severity the threshold admits, with a
listener on `logString`, emits on that channel exactly the line `[`, the level
name, a space, the text of `dateToMilliTimeString`, a space, the short location
of the captured stack, `] `, followed by `util.format(message, args)`. -/
theorem logString_line_exact (rt : Runtime) (st : State) (env : Env) (L : Int)
    (message : JSValue) (args : List JSValue)
    (hge : L ≤ st.level) (hsub : 0 < st.listenerCount .logString) :
    ∃ actions stamp,
      doLog rt st env L message args = .ok actions ∧
      dateToMilliTimeString rt (some env.now) = .ok stamp ∧
      emitted .logString actions =
        [.logString ("[".toList ++ levelToString L ++ " ".toList ++ stamp ++ " ".toList ++
          (getCallLocationFromStackString env.stack 3).short ++ "] ".toList ++
          utilFormat rt (.value message) [.array args])] := by
  have hne : st.logString ≠ [] := by
    intro h0
    simp [State.listenerCount, State.listeners, h0] at hsub
  obtain ⟨actions, hok, -, -, hstr⟩ := notifications_of_ge rt st env L message args hge
  refine ⟨actions, milliTime env.now, hok, dateToMilliTimeString_some rt env.now, ?_⟩
  rw [hstr, if_neg hne]
  simp [logLine]

theorem logString_line_exact_sample :
    LOG_LEVEL_INFO ≤ sampleState.level ∧ 0 < sampleState.listenerCount .logString ∧
    ∃ actions stamp,
      doLog Runtime.blank sampleState sampleEnv LOG_LEVEL_INFO (.string "%s has %d items".toList)
        [.string "cart".toList, .number "3".toList] = .ok actions ∧
      dateToMilliTimeString Runtime.blank (some sampleEnv.now) = .ok stamp ∧
      emitted .logString actions =
        [.logString ("[".toList ++ levelToString LOG_LEVEL_INFO ++ " ".toList ++ stamp ++
          " ".toList ++ (getCallLocationFromStackString sampleEnv.stack 3).short ++
          "] ".toList ++
          utilFormat Runtime.blank (.value (.string "%s has %d items".toList))
            [.array [.string "cart".toList, .number "3".toList]])] :=
  ⟨by decide, by decide,
   logString_line_exact Runtime.blank sampleState sampleEnv LOG_LEVEL_INFO
     (.string "%s has %d items".toList) [.string "cart".toList, .number "3".toList]
     (by decide) (by decide)⟩

/-- Assigning a primitive `val` to `level` stores `parseInt(val, 10)` when that
is an integer between 0 and 4, and then `level` reads as that integer; when it
is an integer outside 0..4, or `NaN` because `val` has no leading digits,
`level` reads as before.  The listeners stay as they were. -/
theorem level_assignment (st : State) (val : JSValue) :
    (∀ n, parseInt val.toJSString = some n → LOG_LEVEL_NONE ≤ n → n ≤ LOG_LEVEL_DEBUG →
      (st.setLevel val).level = n) ∧
    (∀ n, parseInt val.toJSString = some n → (n < LOG_LEVEL_NONE ∨ LOG_LEVEL_DEBUG < n) →
      (st.setLevel val).level = st.level) ∧
    (parseInt val.toJSString = none → (st.setLevel val).level = st.level) ∧
    (st.setLevel val).logObject = st.logObject ∧
    (st.setLevel val).logString = st.logString := by
  unfold State.setLevel
  refine ⟨?_, ?_, ?_, ?_, ?_⟩
  · intro n hn h0 h4
    simp [hn, h0, h4, State.level]
  · intro n hn hout
    have : ¬ (n ≥ LOG_LEVEL_NONE ∧ n ≤ LOG_LEVEL_DEBUG) := by
      rintro ⟨h0, h4⟩
      rcases hout with h | h <;> omega
    simp [hn, this]
  · intro hn
    simp [hn]
  · cases parseInt val.toJSString with
    | none => rfl
    | some n => simp only; split <;> rfl
  · cases parseInt val.toJSString with
    | none => rfl
    | some n => simp only; split <;> rfl

/-- Assignments to `level` at sample values: `3`, `"4px"`, `" 2"`, `3.7` and
`"-0"` are stored as 3, 4, 2, 3 and 0; `7`, `-1`, `NaN`, `"abc"`, `""`, `null`,
`undefined` and `true` leave the threshold at its default. -/
theorem level_assignment_examples :
    (State.initial.setLevel (.number "3".toList)).level = 3 ∧
    (State.initial.setLevel (.string "4px".toList)).level = 4 ∧
    (State.initial.setLevel (.string " 2".toList)).level = 2 ∧
    (State.initial.setLevel (.number "3.7".toList)).level = 3 ∧
    (State.initial.setLevel (.string "-0".toList)).level = 0 ∧
    (State.initial.setLevel (.number "7".toList)).level = 2 ∧
    (State.initial.setLevel (.number "-1".toList)).level = 2 ∧
    (State.initial.setLevel (.number "NaN".toList)).level = 2 ∧
    (State.initial.setLevel (.string "abc".toList)).level = 2 ∧
    (State.initial.setLevel (.string [])).level = 2 ∧
    (State.initial.setLevel .null).level = 2 ∧
    (State.initial.setLevel .undefined).level = 2 ∧
    (State.initial.setLevel (.boolean true)).level = 2 := by
  decide

theorem setLevel_in_range (st : State) (val : JSValue)
    (h : LOG_LEVEL_NONE ≤ st.level ∧ st.level ≤ LOG_LEVEL_DEBUG) :
    LOG_LEVEL_NONE ≤ (st.setLevel val).level ∧ (st.setLevel val).level ≤ LOG_LEVEL_DEBUG := by
  unfold State.setLevel
  cases hp : parseInt val.toJSString with
  | none => simpa using h
  | some n =>
    by_cases hr : n ≥ LOG_LEVEL_NONE ∧ n ≤ LOG_LEVEL_DEBUG
    · simp only []
      rw [if_pos hr]
      exact ⟨hr.1, hr.2⟩
    · simp only []
      rw [if_neg hr]
      exact h

theorem step_level_in_range (rt : Runtime) (st : State) (op : Op)
    (h : LOG_LEVEL_NONE ≤ st.level ∧ st.level ≤ LOG_LEVEL_DEBUG) :
    LOG_LEVEL_NONE ≤ (step rt st op).1.level ∧ (step rt st op).1.level ≤ LOG_LEVEL_DEBUG := by
  cases op with
  | assign val => exact setLevel_in_range st val h
  | call method env arguments =>
    simp only [step]
    cases method.invoke rt st env arguments <;> exact h
  | addListener channel listener =>
    cases channel <;> exact h

theorem run_level_in_range (rt : Runtime) (ops : List Op) :
    ∀ st : State, (LOG_LEVEL_NONE ≤ st.level ∧ st.level ≤ LOG_LEVEL_DEBUG) →
      LOG_LEVEL_NONE ≤ (run rt st ops).1.level ∧ (run rt st ops).1.level ≤ LOG_LEVEL_DEBUG := by
  induction ops with
  | nil => intro st h; exact h
  | cons op ops ih =>
    intro st h
    exact ih _ (step_level_in_range rt st op h)

/-- C6. After any sequence of assignments to `level` (of any values),
emission calls and listener registrations, starting from the state of the
loaded module, the threshold is an integer between `LOG_LEVEL_NONE` and
`LOG_LEVEL_DEBUG`, that is between 0 and 4. -/
theorem threshold_always_in_range (rt : Runtime) (ops : List Op) :
    LOG_LEVEL_NONE ≤ (run rt State.initial ops).1.level ∧
    (run rt State.initial ops).1.level ≤ LOG_LEVEL_DEBUG ∧
    LOG_LEVEL_NONE = 0 ∧ LOG_LEVEL_DEBUG = 4 := by
  have h := run_level_in_range rt ops State.initial (by decide)
  exact ⟨h.1, h.2, rfl, rfl⟩

theorem digitChar_value : ∀ k < 10, (Nat.digitChar k).toNat - '0'.toNat = k := by
  decide

theorem milliTime_digits (d : Date) (hd : d.InRange) :
    milliTime d =
      [Nat.digitChar (d.hours / 10), Nat.digitChar (d.hours % 10), ':',
       Nat.digitChar (d.minutes / 10), Nat.digitChar (d.minutes % 10), ':',
       Nat.digitChar (d.seconds / 10), Nat.digitChar (d.seconds % 10), '.',
       Nat.digitChar (d.milliseconds / 100), Nat.digitChar (d.milliseconds / 10 % 10),
       Nat.digitChar (d.milliseconds % 10)] := by
  obtain ⟨hh, hm, hs, hms⟩ := hd
  simp [milliTime, padString_two _ (show d.hours < 100 by omega),
    padString_two _ (show d.minutes < 100 by omega),
    padString_two _ (show d.seconds < 100 by omega), padString_three _ hms]

theorem digitsValue_two (n : Nat) (hn : n < 100) :
    digitsValue [Nat.digitChar (n / 10), Nat.digitChar (n % 10)] = n := by
  simp only [digitsValue, List.foldl_cons, List.foldl_nil]
  rw [digitChar_value _ (show n / 10 < 10 by omega), digitChar_value _ (show n % 10 < 10 by omega)]
  omega

theorem digitsValue_three (n : Nat) (hn : n < 1000) :
    digitsValue [Nat.digitChar (n / 100), Nat.digitChar (n / 10 % 10), Nat.digitChar (n % 10)] =
      n := by
  simp only [digitsValue, List.foldl_cons, List.foldl_nil]
  rw [digitChar_value _ (show n / 100 < 10 by omega),
    digitChar_value _ (show n / 10 % 10 < 10 by omega),
    digitChar_value _ (show n % 10 < 10 by omega)]
  omega

/-- C11. For a date whose hours, minutes, seconds and milliseconds lie in
0..23, 0..59, 0..59 and 0..999, `dateToMilliTimeString` returns a string of
exactly 12 characters of the shape `DD:DD:DD.DDD` whose four groups of digits,
read as decimal numbers, are the hours, the minutes, the seconds and the
milliseconds; it holds nothing else (no date, no time zone). -/
theorem dateToMilliTimeString_shape (rt : Runtime) (d : Date) (hd : d.InRange) :
    ∃ s, dateToMilliTimeString rt (some d) = .ok s ∧
      s.length = 12 ∧ hasShape "DD:DD:DD.DDD".toList s = true ∧
      digitsValue (s.take 2) = d.hours ∧
      digitsValue ((s.drop 3).take 2) = d.minutes ∧
      digitsValue ((s.drop 6).take 2) = d.seconds ∧
      digitsValue ((s.drop 9).take 3) = d.milliseconds := by
  have hd' := hd
  obtain ⟨hh, hm, hs, hms⟩ := hd'
  refine ⟨milliTime d, dateToMilliTimeString_some rt d, ?_, milliTime_shape d hd, ?_, ?_, ?_, ?_⟩
  · rw [milliTime_digits d hd]; rfl
  · rw [milliTime_digits d hd]
    exact digitsValue_two _ (by omega)
  · rw [milliTime_digits d hd]
    exact digitsValue_two _ (by omega)
  · rw [milliTime_digits d hd]
    exact digitsValue_two _ (by omega)
  · rw [milliTime_digits d hd]
    exact digitsValue_three _ hms

theorem dateToMilliTimeString_shape_sample :
    sampleDate.InRange ∧
    ∃ s, dateToMilliTimeString Runtime.blank (some sampleDate) = .ok s ∧
      s.length = 12 ∧ hasShape "DD:DD:DD.DDD".toList s = true ∧
      digitsValue (s.take 2) = sampleDate.hours ∧
      digitsValue ((s.drop 3).take 2) = sampleDate.minutes ∧
      digitsValue ((s.drop 6).take 2) = sampleDate.seconds ∧
      digitsValue ((s.drop 9).take 3) = sampleDate.milliseconds :=
  ⟨by decide, dateToMilliTimeString_shape Runtime.blank sampleDate (by decide)⟩

/-- C12. When the module is loaded the threshold is `LOG_LEVEL_WARNING`, which
is 2, and the severity constants are 0, 1, 2, 3 and 4 in the order NONE, ERROR,
WARNING, INFO, DEBUG. -/
theorem initial_threshold_and_order :
    State.initial.level = LOG_LEVEL_WARNING ∧ State.initial.level = 2 ∧
    LOG_LEVEL_NONE = 0 ∧ LOG_LEVEL_ERROR = 1 ∧ LOG_LEVEL_WARNING = 2 ∧
    LOG_LEVEL_INFO = 3 ∧ LOG_LEVEL_DEBUG = 4 ∧
    LOG_LEVEL_NONE < LOG_LEVEL_ERROR ∧ LOG_LEVEL_ERROR < LOG_LEVEL_WARNING ∧
    LOG_LEVEL_WARNING < LOG_LEVEL_INFO ∧ LOG_LEVEL_INFO < LOG_LEVEL_DEBUG := by
  decide

theorem indexOf_none_of_absent (sub : JSString) :
    ∀ s : JSString, ¬ sub <:+: s → indexOf s sub = none := by
  intro s
  induction s with
  | nil =>
    intro h
    unfold indexOf
    have hp : sub.isPrefixOf [] = false := by
      cases hb : sub.isPrefixOf [] with
      | false => rfl
      | true => exact absurd (List.isPrefixOf_iff_prefix.mp hb).isInfix h
    simp [hp]
  | cons c cs ih =>
    intro h
    unfold indexOf
    have hp : sub.isPrefixOf (c :: cs) = false := by
      cases hb : sub.isPrefixOf (c :: cs) with
      | false => rfl
      | true => exact absurd (List.isPrefixOf_iff_prefix.mp hb).isInfix h
    have hcs : ¬ sub <:+: cs := fun hi => h (List.infix_cons hi)
    simp [hp, ih hcs]

theorem indexOf_some_spec (sub : JSString) :
    ∀ (s : JSString) (i : Nat), indexOf s sub = some i →
      sub <+: s.drop i ∧ ∀ j < i, ¬ sub <+: s.drop j := by
  intro s
  induction s with
  | nil =>
    intro i h
    unfold indexOf at h
    by_cases hb : sub.isPrefixOf [] = true
    · simp only [hb, if_true, Option.some.injEq] at h
      subst h
      exact ⟨List.isPrefixOf_iff_prefix.mp hb, fun j hj => absurd hj (Nat.not_lt_zero j)⟩
    · simp [hb] at h
  | cons c cs ih =>
    intro i h
    unfold indexOf at h
    by_cases hb : sub.isPrefixOf (c :: cs) = true
    · simp only [hb, if_true, Option.some.injEq] at h
      subst h
      exact ⟨List.isPrefixOf_iff_prefix.mp hb, fun j hj => absurd hj (Nat.not_lt_zero j)⟩
    · simp only [hb, Bool.false_eq_true, if_false, Option.map_eq_some'] at h
      obtain ⟨k, hk, rfl⟩ := h
      obtain ⟨h1, h2⟩ := ih k hk
      refine ⟨by simpa using h1, ?_⟩
      intro j hj
      cases j with
      | zero =>
        intro hp
        exact hb (List.isPrefixOf_iff_prefix.mpr (by simpa using hp))
      | succ j => simpa using h2 j (by omega)

theorem indexOf_some_of_present (sub : JSString) :
    ∀ s : JSString, sub <:+: s → ∃ i, indexOf s sub = some i := by
  intro s hs
  cases h : indexOf s sub with
  | some i => exact ⟨i, rfl⟩
  | none =>
    exfalso
    induction s with
    | nil =>
      unfold indexOf at h
      have : sub <+: [] := by
        have := List.eq_nil_of_infix_nil hs
        subst this
        exact List.prefix_refl _
      simp [List.isPrefixOf_iff_prefix.mpr this] at h
    | cons c cs ih =>
      unfold indexOf at h
      by_cases hb : sub.isPrefixOf (c :: cs) = true
      · simp [hb] at h
      · simp only [hb, Bool.false_eq_true, if_false, Option.map_eq_none'] at h
        rcases List.infix_cons_iff.mp hs with hp | hi
        · exact hb (List.isPrefixOf_iff_prefix.mpr hp)
        · exact ih hi h

theorem split_head_and_mem (sep : Char) :
    ∀ s : JSString, (∃ h t, split sep s = h :: t ∧ h <+: s) ∧
      ∀ l ∈ split sep s, l <:+: s := by
  intro s
  induction s with
  | nil =>
    refine ⟨⟨[], [], rfl, List.prefix_refl _⟩, ?_⟩
    intro l hl
    simp only [split, List.mem_singleton] at hl
    subst hl
    exact List.infix_refl _
  | cons c cs ih =>
    obtain ⟨⟨h0, t0, hsplit, hpre⟩, hmem⟩ := ih
    by_cases hc : c = sep
    · refine ⟨⟨[], split sep cs, by simp [split, hc], List.nil_prefix⟩, ?_⟩
      intro l hl
      simp only [split, hc, if_true, List.mem_cons] at hl
      rcases hl with rfl | hl
      · exact List.nil_infix
      · exact List.infix_cons (hmem l hl)
    · have hs : split sep (c :: cs) = (c :: h0) :: t0 := by
        simp [split, hc, hsplit]
      refine ⟨⟨c :: h0, t0, hs, (List.cons_prefix_cons).mpr ⟨rfl, hpre⟩⟩, ?_⟩
      intro l hl
      rw [hs, List.mem_cons] at hl
      rcases hl with rfl | hl
      · exact ((List.cons_prefix_cons).mpr ⟨rfl, hpre⟩).isInfix
      · exact List.infix_cons (hmem l (by rw [hsplit]; exact List.mem_cons_of_mem _ hl))

/-- C13. `getCallLocationFromStackString` is a total function of the stack
text and the frame count: no step of it can raise.  When the stack text holds
no `at `, or the selected line is absent, or it is empty, the long and the
short location are both the empty string. -/
theorem no_frame_no_location (stackString : JSString) (entry : Nat)
    (h : ¬ "at ".toList <:+: stackString ∨
      (split '\n' stackString).get? (entry + 1) = none ∨
      (split '\n' stackString).get? (entry + 1) = some []) :
    getCallLocationFromStackString stackString entry = { long := [], short := [] } ∧
    (getCallLocationFromStackString stackString entry).long = [] ∧
    (getCallLocationFromStackString stackString entry).short = [] := by
  have key : getCallLocationFromStackString stackString entry = { long := [], short := [] } := by
    unfold getCallLocationFromStackString
    cases hg : (split '\n' stackString).get? (entry + 1) with
    | none => rfl
    | some line =>
      simp only
      by_cases he : line.isEmpty = true
      · rw [if_pos he]
      · rw [if_neg he]
        rcases h with h | h | h
        · have hmem : line ∈ split '\n' stackString := List.get?_mem hg
          have hin : line <:+: stackString := (split_head_and_mem '\n' stackString).2 line hmem
          have hno : ¬ "at ".toList <:+: line := fun hi => h (List.IsInfix.trans hi hin)
          rw [indexOf_none_of_absent _ _ hno]
        · rw [hg] at h
          exact absurd h (by simp)
        · rw [hg] at h
          have : line = [] := Option.some.inj h
          subst this
          exact absurd rfl he
  exact ⟨key, by rw [key], by rw [key]⟩

theorem no_frame_no_location_sample :
    (¬ "at ".toList <:+: frameless ∨
      (split '\n' frameless).get? (0 + 1) = none ∨
      (split '\n' frameless).get? (0 + 1) = some []) ∧
    getCallLocationFromStackString frameless 0 = { long := [], short := [] } ∧
    (getCallLocationFromStackString frameless 0).long = [] ∧
    (getCallLocationFromStackString frameless 0).short = [] :=
  ⟨Or.inl (by decide), no_frame_no_location frameless 0 (Or.inl (by decide))⟩

/-- C14 (the code at the failing input). For the stack of `logger.info(...)`
called at `/home/user/app/main.js:10:8` (the line `Error`, the `doLog` frame,
the wrapper frame, the caller, the caller of the caller) the frame count 3 that
`doLog` passes selects line 4, the caller of the caller; the original caller
is what the count 2 selects. -/
theorem skip_three_selects_outer_frame :
    split '\n' sampleStack =
      ["Error".toList,
       "    at doLog (/opt/generator/lib/logger.js:167:56)".toList,
       "    at EventEmitter.<anonymous> (/opt/generator/lib/logger.js:192:13)".toList,
       "    at Object.<anonymous> (/home/user/app/main.js:10:8)".toList,
       "    at Module._compile (module.js:456:26)".toList] ∧
    (getCallLocationFromStackString sampleStack 3).long =
      "Module._compile (module.js:456:26)".toList ∧
    (getCallLocationFromStackString sampleStack 2).long =
      "Object.<anonymous> (/home/user/app/main.js:10:8)".toList ∧
    emitted .logObject
        ((info Runtime.blank sampleState sampleEnv cartArguments).toOption.getD []) =
      [.logObject "info".toList (some sampleDate) "Module._compile (module.js:456:26)".toList
        (.string "%s has %d items".toList) [.string "cart".toList, .number "3".toList]] := by
  refine ⟨rfl, rfl, rfl, rfl⟩

/-- C15. When line `N + 1` of the stack text (split at newlines) exists and
holds `at `, the long location is exactly what follows the first `at ` in that
line: the line is some text, `at `, and the long location, and no `at ` starts
earlier in the line. -/
theorem long_location_follows_first_at (stackString : JSString) (N : Nat) (line : JSString)
    (hline : (split '\n' stackString).get? (N + 1) = some line)
    (hat : "at ".toList <:+: line) :
    ∃ before,
      line = before ++ "at ".toList ++ (getCallLocationFromStackString stackString N).long ∧
      ∀ before' after', line = before' ++ "at ".toList ++ after' →
        before.length ≤ before'.length := by
  obtain ⟨i, hi⟩ := indexOf_some_of_present _ line hat
  obtain ⟨hpre, hmin⟩ := indexOf_some_spec _ line i hi
  have hne : ¬ line.isEmpty = true := by
    intro he
    have : line = [] := List.isEmpty_iff.mp he
    subst this
    have := List.eq_nil_of_infix_nil hat
    exact absurd this (by decide)
  have hlong : (getCallLocationFromStackString stackString N).long = line.drop (i + 3) := by
    unfold getCallLocationFromStackString
    rw [hline]
    simp only
    rw [if_neg hne, hi]
    rfl
  obtain ⟨rest, hrest⟩ := hpre
  have hdrop : line.drop (i + 3) = rest := by
    have h3 : ("at ".toList).length = 3 := rfl
    have : line.drop (i + 3) = (line.drop i).drop 3 := by
      rw [List.drop_drop]
    rw [this, ← hrest, ← h3, List.drop_left]
  refine ⟨line.take i, ?_, ?_⟩
  · rw [hlong, hdrop, List.append_assoc, hrest, List.take_append_drop]
  · intro before' after' hb
    by_contra hlt
    have hle : (line.take i).length ≤ i := by
      rw [List.length_take]
      exact Nat.min_le_left _ _
    have hlt' : before'.length < i := by omega
    apply hmin before'.length hlt'
    rw [hb, List.append_assoc, List.drop_left]
    exact List.prefix_append _ _

theorem long_location_follows_first_at_sample :
    (split '\n' sampleStack).get? (2 + 1) =
      some "    at Object.<anonymous> (/home/user/app/main.js:10:8)".toList ∧
    "at ".toList <:+: "    at Object.<anonymous> (/home/user/app/main.js:10:8)".toList ∧
    ∃ before,
      "    at Object.<anonymous> (/home/user/app/main.js:10:8)".toList =
        before ++ "at ".toList ++ (getCallLocationFromStackString sampleStack 2).long ∧
      ∀ before' after',
        "    at Object.<anonymous> (/home/user/app/main.js:10:8)".toList =
          before' ++ "at ".toList ++ after' →
        before.length ≤ before'.length :=
  ⟨rfl, by decide,
   long_location_follows_first_at sampleStack 2
     "    at Object.<anonymous> (/home/user/app/main.js:10:8)".toList rfl (by decide)⟩

/-- C16 (the code at the failing input). For the long location
`EventEmitter.error (/some/place/on/disk/logger.js:153:13)` the short location
returned is the whole content of the parentheses,
`/some/place/on/disk/logger.js:153:13`: the text after the last `/` is computed
and dropped, so the directory is not stripped. -/
theorem short_location_keeps_directory :
    (getCallLocationFromStackString commentStack 0).long =
      "EventEmitter.error (/some/place/on/disk/logger.js:153:13)".toList ∧
    (getCallLocationFromStackString commentStack 0).short =
      "/some/place/on/disk/logger.js:153:13".toList ∧
    (getCallLocationFromStackString commentStack 0).short ≠ "logger.js:153:13".toList ∧
    (lastIndexOf "/some/place/on/disk/logger.js:153:13".toList "/".toList).map
        (fun slashLocation =>
          substrFrom "/some/place/on/disk/logger.js:153:13".toList (slashLocation + 1)) =
      some "logger.js:153:13".toList := by
  refine ⟨rfl, rfl, ?_, rfl⟩
  decide

theorem indexOf_paren_none (s : JSString) (h : '(' ∉ s) : indexOf s "(".toList = none := by
  apply indexOf_none_of_absent
  rintro ⟨a, b, hab⟩
  apply h
  rw [← hab]
  simp

/-- C17. When the long location holds no `(`, the short location returned is
the long location, whole and unchanged. -/
theorem short_is_long_without_paren (stackString : JSString) (entry : Nat)
    (h : '(' ∉ (getCallLocationFromStackString stackString entry).long) :
    (getCallLocationFromStackString stackString entry).short =
      (getCallLocationFromStackString stackString entry).long := by
  unfold getCallLocationFromStackString at h ⊢
  cases hg : (split '\n' stackString).get? (entry + 1) with
  | none => rfl
  | some line =>
    rw [hg] at h
    simp only at h ⊢
    by_cases he : line.isEmpty = true
    · rw [if_pos he]
    · rw [if_neg he] at h ⊢
      cases hi : indexOf line "at ".toList with
      | none => rfl
      | some i =>
        rw [hi] at h
        simp only at h ⊢
        rw [indexOf_paren_none _ h]

theorem short_is_long_without_paren_sample :
    '(' ∉ (getCallLocationFromStackString replStack 0).long ∧
    (getCallLocationFromStackString replStack 0).long = "repl:1:6".toList ∧
    (getCallLocationFromStackString replStack 0).short =
      (getCallLocationFromStackString replStack 0).long :=
  ⟨by decide, rfl, short_is_long_without_paren replStack 0 (by decide)⟩

/-- C18. The method `makeLogMethod` returns calls `doLog` with the message
`arguments[0] || ""` and the arguments after the first: the message is the
first argument when that is truthy and the empty string when it is absent or
falsy (`undefined`, `null`, `""`, `0`, `false` and `NaN` are falsy); the array
is the rest of the arguments in order, empty when there is at most one
argument.  Both reach a `logObject` listener as handed over. -/
theorem makeLogMethod_hands_over (rt : Runtime) (L : Int) (st : State) (env : Env)
    (arguments : List JSValue) :
    makeLogMethod rt L st env arguments =
      doLog rt st env L (handedMessage arguments) (handedArgs arguments) ∧
    (arguments = [] → handedMessage arguments = .string [] ∧ handedArgs arguments = []) ∧
    (∀ first rest, arguments = first :: rest →
      handedArgs arguments = rest ∧
      (first.toBoolean = true → handedMessage arguments = first) ∧
      (first.toBoolean = false → handedMessage arguments = .string [])) ∧
    (arguments.length ≤ 1 → handedArgs arguments = []) ∧
    (∀ v ∈ [JSValue.undefined, .null, .string [], .number "0".toList, .boolean false,
        .number "NaN".toList], v.toBoolean = false) ∧
    (L ≤ st.level → st.logObject ≠ [] →
      ∃ actions, makeLogMethod rt L st env arguments = .ok actions ∧
        emitted .logObject actions =
          [.logObject (levelToString L) (some env.now)
            (getCallLocationFromStackString env.stack 3).long
            (handedMessage arguments) (handedArgs arguments)]) := by
  refine ⟨rfl, ?_, ?_, ?_, ?_, ?_⟩
  · rintro rfl
    exact ⟨rfl, rfl⟩
  · rintro first rest rfl
    refine ⟨rfl, ?_, ?_⟩
    · intro ht
      simp [handedMessage, ht]
    · intro hf
      simp [handedMessage, hf]
  · intro hlen
    match arguments, hlen with
    | [], _ => rfl
    | [_], _ => rfl
  · decide
  · intro hge hne
    obtain ⟨actions, hok, -, hobj, -⟩ :=
      notifications_of_ge rt st env L (handedMessage arguments) (handedArgs arguments) hge
    refine ⟨actions, hok, ?_⟩
    rw [hobj, if_neg hne]
    rfl

/-- C19. An emission at a severity the threshold admits, with listeners on
both channels, emits the `logObject` event first and the `logString` event
second, so the `logObject` listeners are called before the `logString` ones;
both carry the same level name, the one time read from the clock and the long
and short form of the one location resolved from the stack; no call of an
emission method changes the state, the threshold included. -/
theorem object_then_string (rt : Runtime) (st : State) (env : Env) (L : Int)
    (message : JSValue) (args : List JSValue) (hge : L ≤ st.level)
    (hobj : 0 < st.listenerCount .logObject) (hstr : 0 < st.listenerCount .logString) :
    ∃ name time location stamp first second,
      name = levelToString L ∧ time = env.now ∧
      location = getCallLocationFromStackString env.stack 3 ∧
      dateToMilliTimeString rt (some time) = .ok stamp ∧
      first = Event.logObject name (some time) location.long message args ∧
      second = Event.logString ("[".toList ++ name ++ " ".toList ++ stamp ++ " ".toList ++
        location.short ++ "] ".toList ++ utilFormat rt (.value message) [.array args]) ∧
      doLog rt st env L message args = .ok [.emit first, .emit second] ∧
      st.notifications [.emit first, .emit second] =
        st.logObject.map (fun l => ⟨l, first⟩) ++
        st.logString.map (fun l => ⟨l, second⟩) ∧
      ∀ (method : Method) (arguments : List JSValue),
        (step rt st (.call method env arguments)).1 = st ∧
        (step rt st (.call method env arguments)).1.level = st.level := by
  have hno : st.logObject ≠ [] := by
    intro h0
    simp [State.listenerCount, State.listeners, h0] at hobj
  have hns : st.logString ≠ [] := by
    intro h0
    simp [State.listenerCount, State.listeners, h0] at hstr
  refine ⟨_, _, _, milliTime env.now, _, _, rfl, rfl, rfl, dateToMilliTimeString_some rt env.now,
    rfl, rfl, ?_, ?_, ?_⟩
  · rw [doLog_of_ge rt st env L message args hge]
    simp [hno, hns, objectEvent, logLine]
  · simp [State.notifications, State.emit, State.listeners, Event.channel]
  · intro method arguments
    simp only [step]
    cases method.invoke rt st env arguments <;> exact ⟨rfl, rfl⟩

theorem object_then_string_sample :
    LOG_LEVEL_INFO ≤ sampleState.level ∧ 0 < sampleState.listenerCount .logObject ∧
    0 < sampleState.listenerCount .logString ∧
    ∃ name time location stamp first second,
      name = levelToString LOG_LEVEL_INFO ∧ time = sampleEnv.now ∧
      location = getCallLocationFromStackString sampleEnv.stack 3 ∧
      dateToMilliTimeString Runtime.blank (some time) = .ok stamp ∧
      first = Event.logObject name (some time) location.long
        (.string "%s has %d items".toList) [.string "cart".toList, .number "3".toList] ∧
      second = Event.logString ("[".toList ++ name ++ " ".toList ++ stamp ++ " ".toList ++
        location.short ++ "] ".toList ++
        utilFormat Runtime.blank (.value (.string "%s has %d items".toList))
          [.array [.string "cart".toList, .number "3".toList]]) ∧
      doLog Runtime.blank sampleState sampleEnv LOG_LEVEL_INFO
        (.string "%s has %d items".toList) [.string "cart".toList, .number "3".toList] =
          .ok [.emit first, .emit second] ∧
      sampleState.notifications [.emit first, .emit second] =
        sampleState.logObject.map (fun l => ⟨l, first⟩) ++
        sampleState.logString.map (fun l => ⟨l, second⟩) ∧
      ∀ (method : Method) (arguments : List JSValue),
        (step Runtime.blank sampleState (.call method sampleEnv arguments)).1 = sampleState ∧
        (step Runtime.blank sampleState (.call method sampleEnv arguments)).1.level =
          sampleState.level :=
  ⟨by decide, by decide, by decide,
   object_then_string Runtime.blank sampleState sampleEnv LOG_LEVEL_INFO
     (.string "%s has %d items".toList) [.string "cart".toList, .number "3".toList]
     (by decide) (by decide) (by decide)⟩

theorem assignLevel_primitive (st : State) (v : JSValue) :
    st.assignLevel (.primitive v) = (st.setLevel v, none) := by
  unfold State.assignLevel State.setLevel
  simp only [AnyValue.toJSString]
  cases parseInt v.toJSString with
  | none => rfl
  | some n =>
    simp only
    split <;> rfl

/-- C5 (the claim fails). Assigning `Object.create(null)` or a symbol to
`level` raises a `TypeError`: an error is signaled.  The threshold stays at its
default. -/
theorem level_assignment_raises :
    State.initial.assignLevel nullPrototypeObject = (State.initial, some .typeError) ∧
    State.initial.assignLevel .symbol = (State.initial, some .typeError) ∧
    (State.initial.assignLevel nullPrototypeObject).2 ≠ none ∧
    (State.initial.assignLevel nullPrototypeObject).1.level = 2 := by
  refine ⟨rfl, rfl, ?_, rfl⟩
  decide

/-- C5 (amended). Assigning to `level` a value whose conversion to a string
returns (every primitive, and every object whose conversion returns) raises no
error and stores `parseInt` of that string when it is an integer between 0 and
4, so that `level` reads as that integer; when it is an integer outside 0..4,
or `NaN`, `level` reads as before.  When the conversion raises, the assignment
raises that error and `level` reads as before.  The listeners stay as they
were in every case. -/
theorem level_assignment_any (st : State) (val : AnyValue) :
    (∀ input, val.toJSString = .ok input →
      (st.assignLevel val).2 = none ∧
      (∀ n, parseInt input = some n → LOG_LEVEL_NONE ≤ n → n ≤ LOG_LEVEL_DEBUG →
        (st.assignLevel val).1.level = n) ∧
      (∀ n, parseInt input = some n → (n < LOG_LEVEL_NONE ∨ LOG_LEVEL_DEBUG < n) →
        (st.assignLevel val).1.level = st.level) ∧
      (parseInt input = none → (st.assignLevel val).1.level = st.level)) ∧
    (∀ v, val = .primitive v →
      val.toJSString = .ok v.toJSString ∧ st.assignLevel val = (st.setLevel v, none)) ∧
    (∀ e, val.toJSString = .error e → st.assignLevel val = (st, some e)) ∧
    (st.assignLevel val).1.logObject = st.logObject ∧
    (st.assignLevel val).1.logString = st.logString := by
  refine ⟨?_, ?_, ?_, ?_, ?_⟩
  · intro input hin
    unfold State.assignLevel
    rw [hin]
    refine ⟨?_, ?_, ?_, ?_⟩
    · cases hp : parseInt input with
      | none => simp [hp]
      | some n =>
        by_cases hr : n ≥ LOG_LEVEL_NONE ∧ n ≤ LOG_LEVEL_DEBUG <;> simp [hp, hr]
    · intro n hn h0 h4
      simp [hn, h0, h4, State.level]
    · intro n hn hout
      have : ¬ (n ≥ LOG_LEVEL_NONE ∧ n ≤ LOG_LEVEL_DEBUG) := by
        rintro ⟨h0, h4⟩
        rcases hout with h | h <;> omega
      simp [hn, this]
    · intro hn
      simp [hn]
  · rintro v rfl
    exact ⟨rfl, assignLevel_primitive st v⟩
  · intro e he
    unfold State.assignLevel
    rw [he]
  · unfold State.assignLevel
    cases val.toJSString with
    | error e => rfl
    | ok input =>
      cases hp : parseInt input with
      | none => simp [hp]
      | some n =>
        by_cases hr : n ≥ LOG_LEVEL_NONE ∧ n ≤ LOG_LEVEL_DEBUG <;> simp [hp, hr]
  · unfold State.assignLevel
    cases val.toJSString with
    | error e => rfl
    | ok input =>
      cases hp : parseInt input with
      | none => simp [hp]
      | some n =>
        by_cases hr : n ≥ LOG_LEVEL_NONE ∧ n ≤ LOG_LEVEL_DEBUG <;> simp [hp, hr]

/-- Assignments of objects to `level`: the array `[3]` converts to `3` and is
stored, an object that converts to `seven` is ignored without an error. -/
theorem level_assignment_any_examples :
    State.initial.assignLevel arrayOfThree =
      ({ logLevel := 3, logObject := [], logString := [] }, none) ∧
    State.initial.assignLevel (.object (.ok "seven".toList)) = (State.initial, none) ∧
    State.initial.assignLevel (.primitive (.number "4".toList)) =
      ({ logLevel := 4, logObject := [], logString := [] }, none) ∧
    State.initial.assignLevel (.primitive .undefined) = (State.initial, none) := by
  decide

end Logger
